import Mathlib

/-!
Verification development for the CSP timetable solver (`csp_solver.py`).

The Python module builds a constraint-satisfaction model from five catalog
tables (courses, instructors, rooms, timeslots, sections), constructs one
variable per (section, required-course) pair with a domain of
(room, timeslot, instructor) candidates, and runs a depth-first backtracking
search with an MRV ordering heuristic under an iteration budget.

This file gives a shallow embedding of that module: Python dicts become
insertion-ordered association lists (`dictInsert` reproduces CPython's
overwrite-in-place / append-new semantics), pandas rows become structures,
and the recursive `backtrack` closure becomes a well-founded mutual
recursion threading the assignment and the iteration counter explicitly.
-/

namespace Timetable

/-- Association-list get with Python-dict semantics: first (unique) matching
key wins. Models `d[k]` / `d.get(k)`. -/
def dictGet {α : Type} : List (String × α) → String → Option α
  | [], _ => none
  | (k', v) :: rest, k => if k' = k then some v else dictGet rest k

/-- Association-list insert with CPython dict semantics: overwriting an
existing key keeps its original position, a new key is appended at the end. -/
def dictInsert {α : Type} : List (String × α) → String → α → List (String × α)
  | [], k, v => [(k, v)]
  | (k', v') :: rest, k, v =>
      if k' = k then (k, v) :: rest else (k', v') :: dictInsert rest k v

/-- Key membership, modelling Python's `k in d`. -/
def dictContains {α : Type} (d : List (String × α)) (k : String) : Bool :=
  (dictGet d k).isSome

/-- Python substring test `needle in hay`. -/
def pyIn (needle hay : String) : Bool :=
  decide (needle.toList <:+: hay.toList)

/-- Python `str.lower()` (the catalogs are ASCII, where per-character
lowering coincides with Python's). Defined through the character list so
that it evaluates structurally. -/
def pyLower (s : String) : String :=
  ⟨s.data.map Char.toLower⟩

/-- Python `str.strip()`: drop leading and trailing whitespace. -/
def pyStrip (s : String) : String :=
  ⟨((s.data.dropWhile Char.isWhitespace).reverse.dropWhile Char.isWhitespace).reverse⟩

/-- Python `str.split(',')` on the character list: every comma separates,
and splitting the empty string yields one empty field. -/
def splitOnComma : List Char → List (List Char)
  | [] => [[]]
  | c :: rest =>
      let r := splitOnComma rest
      if c = ',' then [] :: r
      else
        match r with
        | [] => [[c]]
        | g :: gs => (c :: g) :: gs

/-- Models `str(field).split(',')` followed by `strip` and dropping empty
entries, as done for `QualifiedCourses` and `Courses` in `_parse_data`. -/
def splitCSV (s : String) : List String :=
  (((splitOnComma s.data).map (fun g => pyStrip ⟨g⟩)).filter (fun c => c ≠ ""))

/-! ## Raw catalog records (the five CSV tables, §6 of the spec) -/

/-- One row of `Courses.csv`. `ctype` is the CSV column `Type`. -/
structure CourseRec where
  courseID : String
  courseName : String
  ctype : String
  credits : Nat
deriving DecidableEq

/-- One row of `Instructor.csv`; `qualifiedCourses` is the raw delimited
course-id list, split during parsing. -/
structure InstructorRec where
  instructorID : String
  name : String
  qualifiedCourses : String
  preferredSlots : String
deriving DecidableEq

/-- One row of `Rooms.csv`. `rtype` is the CSV column `Type`. -/
structure RoomRec where
  roomID : String
  rtype : String
  capacity : Nat
deriving DecidableEq

/-- One row of `TimeSlots.csv`. `endTime` is the CSV column `EndTime`. -/
structure TimeSlotRec where
  timeSlotID : String
  day : String
  startTime : String
  endTime : String
deriving DecidableEq

/-- One row of `Sections.csv`; `courses` is the raw delimited course-id list. -/
structure SectionRec where
  sectionID : String
  studentCount : Nat
  courses : String
deriving DecidableEq

/-- The `data` dictionary returned by `load_data()`: the five catalogs. -/
structure InputData where
  courses : List CourseRec
  instructors : List InstructorRec
  rooms : List RoomRec
  timeslots : List TimeSlotRec
  sections : List SectionRec
deriving DecidableEq

/-! ## Parsed lookup tables (`TimetableCSP._parse_data`) -/

/-- Value stored in `self.instructor_courses[instructor_id]`. -/
structure InstrInfo where
  name : String
  courses : List String
  preferences : String
deriving DecidableEq

/-- Value stored in `self.section_courses[section_id]`. -/
structure SectInfo where
  student_count : Nat
  courses : List String
deriving DecidableEq

/-- Value stored in `self.courses[course_id]`. -/
structure CourseInfo where
  name : String
  ctype : String
  credits : Nat
deriving DecidableEq

/-- Value stored in `self.rooms[room_id]`. -/
structure RoomInfo where
  rtype : String
  capacity : Nat
deriving DecidableEq

/-- Entry of `self.timeslots`. `stop` is the dict key `end` (a Lean keyword). -/
structure SlotInfo where
  id : String
  day : String
  start : String
  stop : String
deriving DecidableEq

/-- Builds `self.instructor_courses` from the instructor rows. -/
def parse_instructors (l : List InstructorRec) : List (String × InstrInfo) :=
  l.foldl
    (fun d i =>
      dictInsert d i.instructorID ⟨i.name, splitCSV i.qualifiedCourses, i.preferredSlots⟩)
    []

/-- Builds `self.section_courses` from the section rows. -/
def parse_sections (l : List SectionRec) : List (String × SectInfo) :=
  l.foldl (fun d s => dictInsert d s.sectionID ⟨s.studentCount, splitCSV s.courses⟩) []

/-- Builds `self.courses` from the course rows. -/
def parse_courses (l : List CourseRec) : List (String × CourseInfo) :=
  l.foldl (fun d c => dictInsert d c.courseID ⟨c.courseName, c.ctype, c.credits⟩) []

/-- Builds `self.rooms` from the room rows. -/
def parse_rooms (l : List RoomRec) : List (String × RoomInfo) :=
  l.foldl (fun d r => dictInsert d r.roomID ⟨r.rtype, r.capacity⟩) []

/-- Builds `self.timeslots` from the timeslot rows. -/
def parse_timeslots (l : List TimeSlotRec) : List SlotInfo :=
  l.map (fun t => ⟨t.timeSlotID, t.day, t.startTime, t.endTime⟩)

/-! ## Variables (`TimetableCSP._create_variables`) -/

/-- Value stored in `self.variable_info[var_name]`. -/
structure VarInfo where
  section_id : String
  course_id : String
  student_count : Nat
  course_type : String
  course_name : String
deriving DecidableEq

/-- The variable name `f"{section_id}_{course_id}"`. -/
def varName (section_id course_id : String) : String :=
  section_id ++ "_" ++ course_id

/-- The body of the inner loop of `_create_variables`: for one course id of
one section, if the course id is in the course table
(`if course_id in self.courses`) append the variable name to
`self.variables` and record its info in `self.variable_info`; otherwise the
pair is silently skipped, with no error raised. The accumulator is the pair
`(variables, variable_info)`. -/
def add_course_var (courses : List (String × CourseInfo)) (sc : String × SectInfo)
    (acc : List String × List (String × VarInfo)) (course_id : String) :
    List String × List (String × VarInfo) :=
  match dictGet courses course_id with
  | some cinfo =>
      (acc.1 ++ [varName sc.1 course_id],
       dictInsert acc.2 (varName sc.1 course_id)
         ⟨sc.1, course_id, sc.2.student_count, cinfo.ctype, cinfo.name⟩)
  | none => acc

/-- The body of the outer loop of `_create_variables`: process every required
course id of one section in order. -/
def add_section_vars (courses : List (String × CourseInfo))
    (acc : List String × List (String × VarInfo)) (sc : String × SectInfo) :
    List String × List (String × VarInfo) :=
  sc.2.courses.foldl (add_course_var courses sc) acc

/-- Models `_create_variables`: the two nested loops over
`self.section_courses` and each section's required course ids, starting from
empty `variables` and `variable_info`. -/
def create_variables (section_courses : List (String × SectInfo))
    (courses : List (String × CourseInfo)) :
    List String × List (String × VarInfo) :=
  section_courses.foldl (add_section_vars courses) ([], [])

/-! ## Domains (`TimetableCSP._create_domains` and `_room_matches_course`) -/

/-- Models `_room_matches_course`: lowercases both type strings and uses
Python substring containment (`'lecture' in course_lower`, …). -/
def room_matches_course (room_type course_type : String) : Bool :=
  let room_lower := pyLower room_type
  let course_lower := pyLower course_type
  if pyIn "lecture" course_lower && pyIn "lecture" room_lower then true
  else if pyIn "lab" course_lower && pyIn "lab" room_lower then true
  else if pyIn "lecture" course_lower && pyIn "lab" course_lower then true
  else false

/-- First (unrelaxed) room pass: type compatibility AND capacity at least
the section's student count. -/
def suitable_rooms_pass1 (rooms : List (String × RoomInfo)) (course_type : String)
    (student_count : Nat) : List String :=
  (rooms.filter
      (fun p => room_matches_course p.2.rtype course_type
        && decide (p.2.capacity ≥ student_count))).map Prod.fst

/-- Second pass (capacity relaxed): type compatibility only. -/
def suitable_rooms_pass2 (rooms : List (String × RoomInfo)) (course_type : String) :
    List String :=
  (rooms.filter (fun p => room_matches_course p.2.rtype course_type)).map Prod.fst

/-- The three-stage room selection of `_create_domains`: unrelaxed pass, then
the capacity-relaxed pass, then `list(self.rooms.keys())[:10]`. -/
def suitable_rooms (rooms : List (String × RoomInfo)) (course_type : String)
    (student_count : Nat) : List String :=
  let pass1 := suitable_rooms_pass1 rooms course_type student_count
  if pass1.isEmpty then
    let pass2 := suitable_rooms_pass2 rooms course_type
    if pass2.isEmpty then (rooms.map Prod.fst).take 10 else pass2
  else pass1

/-- Instructor selection of `_create_domains`: instructors whose qualification
list contains the course id, or the single placeholder `'UNASSIGNED'`. -/
def qualified_instructors (instructor_courses : List (String × InstrInfo))
    (course_id : String) : List String :=
  let qs := (instructor_courses.filter (fun p => p.2.courses.contains course_id)).map
    Prod.fst
  if qs.isEmpty then ["UNASSIGNED"] else qs

/-- One candidate of a domain: the dict appended in `_create_domains`. -/
structure DomainValue where
  room : String
  timeslot_id : String
  day : String
  start_time : String
  end_time : String
  instructor_id : String
  instructor_name : String
deriving DecidableEq

/-- The cartesian-product enumeration of `_create_domains`: rooms outermost,
then timeslots, then instructors; the instructor name is
`self.instructor_courses.get(id, {}).get('name', 'Unassigned')`. -/
def build_domain (instructor_courses : List (String × InstrInfo))
    (timeslots : List SlotInfo) (rooms_list : List String)
    (instructors_list : List String) : List DomainValue :=
  rooms_list.flatMap (fun room_id =>
    timeslots.flatMap (fun ts =>
      instructors_list.map (fun instructor_id =>
        { room := room_id
          timeslot_id := ts.id
          day := ts.day
          start_time := ts.start
          end_time := ts.stop
          instructor_id := instructor_id
          instructor_name :=
            match dictGet instructor_courses instructor_id with
            | some d => d.name
            | none => "Unassigned" })))

/-- The body of the loop of `_create_domains`: look up the variable's info
and store the product domain for it. (In Python `self.variable_info[var_name]`
cannot fail: `_create_variables` records an info entry for every created
variable; the `none` branch is vacuous and merely skips.) -/
def add_domain (variable_info : List (String × VarInfo))
    (rooms : List (String × RoomInfo)) (instructor_courses : List (String × InstrInfo))
    (timeslots : List SlotInfo) (doms : List (String × List DomainValue))
    (var_name : String) : List (String × List DomainValue) :=
  match dictGet variable_info var_name with
  | some vi =>
      dictInsert doms var_name
        (build_domain instructor_courses timeslots
          (suitable_rooms rooms vi.course_type vi.student_count)
          (qualified_instructors instructor_courses vi.course_id))
  | none => doms

/-- Models `_create_domains`: the loop over `self.variables`, starting from
an empty domains dict. -/
def create_domains (vars_list : List String)
    (variable_info : List (String × VarInfo)) (rooms : List (String × RoomInfo))
    (instructor_courses : List (String × InstrInfo)) (timeslots : List SlotInfo) :
    List (String × List DomainValue) :=
  vars_list.foldl (add_domain variable_info rooms instructor_courses timeslots) []

/-- The state built by `TimetableCSP.__init__` (everything except the mutable
`self.assignment`, which the search threads explicitly). -/
structure TimetableCSP where
  instructor_courses : List (String × InstrInfo)
  section_courses : List (String × SectInfo)
  courses : List (String × CourseInfo)
  rooms : List (String × RoomInfo)
  timeslots : List SlotInfo
  vars : List String
  variable_info : List (String × VarInfo)
  domains : List (String × List DomainValue)
deriving DecidableEq

/-- Models `TimetableCSP.__init__(data)`: parse, create variables, create
domains. -/
def buildCSP (data : InputData) : TimetableCSP :=
  let instructor_courses := parse_instructors data.instructors
  let section_courses := parse_sections data.sections
  let courses := parse_courses data.courses
  let rooms := parse_rooms data.rooms
  let timeslots := parse_timeslots data.timeslots
  let vars := create_variables section_courses courses
  { instructor_courses := instructor_courses
    section_courses := section_courses
    courses := courses
    rooms := rooms
    timeslots := timeslots
    vars := vars.1
    variable_info := vars.2
    domains := create_domains vars.1 vars.2 rooms instructor_courses timeslots }

/-- The mutable `self.assignment` dict. During the search keys are always
fresh when inserted, so insertion is a plain append. -/
abbrev Assignment := List (String × DomainValue)

/-- Lookup in `self.variable_info` (`self.variable_info[var]`; the search only
ever queries variables that were created, so the default is never reached
there). -/
def var_info_of (csp : TimetableCSP) (v : String) : VarInfo :=
  (dictGet csp.variable_info v).getD ⟨"", "", 0, "", ""⟩

/-- Lookup in `self.domains` (`self.domains[var]`; same remark as
`var_info_of`). -/
def domain_of (csp : TimetableCSP) (v : String) : List DomainValue :=
  (dictGet csp.domains v).getD []

/-- Key membership in the assignment dict (`v in self.assignment`). -/
def assignedB (assignment : Assignment) (v : String) : Bool :=
  assignment.any (fun p => p.1 == v)

/-! ## Constraint checking (`TimetableCSP.is_consistent`) -/

/-- Models `is_consistent(var, value)`: scans every assigned variable and
rejects on same room + same timeslot, same non-placeholder instructor + same
timeslot, or same section + same timeslot. -/
def is_consistent (csp : TimetableCSP) (assignment : Assignment) (var : String)
    (value : DomainValue) : Bool :=
  let room := value.room
  let timeslot_id := value.timeslot_id
  let instructor_id := value.instructor_id
  let section_id := (var_info_of csp var).section_id
  assignment.all (fun p =>
    let av := p.2
    let assigned_section := (var_info_of csp p.1).section_id
    !(room == av.room && timeslot_id == av.timeslot_id)
      && !(instructor_id == av.instructor_id && timeslot_id == av.timeslot_id
            && instructor_id != "UNASSIGNED")
      && !(section_id == assigned_section && timeslot_id == av.timeslot_id))

/-! ## Variable selection (`TimetableCSP.select_unassigned_variable`) -/

/-- Models `select_unassigned_variable`: filter the unassigned variables,
return `None` if there are none, else sort by static domain size and return
the first. Python's `list.sort` is stable, as is `List.mergeSort`; a stable
sort by a key is unique, so the two agree exactly. -/
def select_unassigned_variable (csp : TimetableCSP) (assignment : Assignment) :
    Option String :=
  let unassigned := csp.vars.filter (fun v => !(assignedB assignment v))
  if unassigned.isEmpty then none
  else
    (unassigned.mergeSort
      (fun u v => decide ((domain_of csp u).length ≤ (domain_of csp v).length))).head?

/-! ## Search engine (`TimetableCSP.backtracking_search` and the nested
`backtrack` closure) -/

/-- Number of variables not yet assigned; termination measure of the search. -/
def unassigned_count (csp : TimetableCSP) (assignment : Assignment) : Nat :=
  (csp.vars.filter (fun v => !(assignedB assignment v))).length

/-- Number of variables neither assigned nor equal to `var`; termination
measure of the candidate loop. -/
def unassigned_count_except (csp : TimetableCSP) (assignment : Assignment)
    (var : String) : Nat :=
  (csp.vars.filter (fun v => !(assignedB assignment v) && !(var == v))).length

mutual

/-- Models the nested `backtrack()` closure of `backtracking_search`.

State is threaded explicitly: `assignment` models `self.assignment` at entry
and `iterations` the counter `iterations[0]` before the `iterations[0] += 1`
at the top of the call; the result triple is
`(return value, self.assignment at return, iterations[0] at return)`.
The steps mirror the source in order: increment the counter, check the
iteration limit, check completeness (`len(assignment) == len(variables)`),
select a variable (`None` means failure), then try its domain values. -/
def backtrack (csp : TimetableCSP) (max_iterations : Nat) (assignment : Assignment)
    (iterations : Nat) : Bool × Assignment × Nat :=
  let it1 := iterations + 1
  if it1 ≥ max_iterations then (false, assignment, it1)
  else if assignment.length = csp.vars.length then (true, assignment, it1)
  else
    match h : select_unassigned_variable csp assignment with
    | none => (false, assignment, it1)
    | some var => try_values csp max_iterations assignment var (domain_of csp var) it1
termination_by (unassigned_count csp assignment, 0)
decreasing_by
  simp only [Prod.lex_iff]
  refine Or.inl ?_
  have hmem : var ∈ csp.vars.filter (fun x => !(assignedB assignment x)) := by
    unfold select_unassigned_variable at h
    by_cases he : (csp.vars.filter (fun x => !(assignedB assignment x))).isEmpty
    · rw [if_pos he] at h
      cases h
    · rw [if_neg he] at h
      exact ((List.mergeSort_perm _ _).mem_iff).mp
        (List.mem_of_mem_head? (Option.mem_def.mpr h))
  have hff : csp.vars.filter (fun v => !(assignedB assignment v) && !(var == v))
      = (csp.vars.filter (fun x => !(assignedB assignment x))).filter
          (fun v => !(var == v)) := by
    rw [List.filter_filter]
    exact List.filter_congr (fun v _ => by rw [Bool.and_comm])
  unfold unassigned_count unassigned_count_except
  rw [hff]
  exact List.length_filter_lt_length_iff_exists.mpr ⟨var, hmem, by simp⟩

/-- Models the `for value in self.domains[var]` loop inside `backtrack()`:
a consistent value is tentatively assigned (appended, since `var` is fresh)
and the search recurses; on failure `del self.assignment[var]` removes
exactly that binding, restoring the loop's entry assignment — a failing
`backtrack()` call returns `self.assignment` unchanged (proved below as
`backtrack_fail_assignment`), so the loop continues from `assignment`
while threading the updated iteration counter. -/
def try_values (csp : TimetableCSP) (max_iterations : Nat) (assignment : Assignment)
    (var : String) (values : List DomainValue) (iterations : Nat) :
    Bool × Assignment × Nat :=
  match values with
  | [] => (false, assignment, iterations)
  | value :: rest =>
    if is_consistent csp assignment var value then
      let r := backtrack csp max_iterations (assignment ++ [(var, value)]) iterations
      if r.1 then r
      else try_values csp max_iterations assignment var rest r.2.2
    else try_values csp max_iterations assignment var rest iterations
termination_by (unassigned_count_except csp assignment var, values.length + 1)
decreasing_by
  · simp only [Prod.lex_iff, List.length_cons]
    refine Or.inr ⟨?_, by omega⟩
    unfold unassigned_count unassigned_count_except
    congr 1
    refine List.filter_congr (fun v _ => ?_)
    simp [assignedB, List.any_append, Bool.not_or]
  · simp only [Prod.lex_iff, List.length_cons]
    refine Or.inr ⟨by trivial, by omega⟩
  · simp only [Prod.lex_iff, List.length_cons]
    refine Or.inr ⟨by trivial, by omega⟩

end

/-- Models `backtracking_search(max_iterations)`: reset `self.assignment` to
empty and `iterations` to `[0]`, then run `backtrack()`. The triple is
`(success, self.assignment after the call, final iterations count)`; the
Python method returns only `success`, leaves `self.assignment` readable as an
attribute, and only prints the iteration count. -/
def backtracking_search (csp : TimetableCSP) (max_iterations : Nat) :
    Bool × Assignment × Nat :=
  backtrack csp max_iterations [] 0

/-! ## Output generation (`TimetableCSP.generate_schedule_dataframe`) -/

/-- One flat output record (one DataFrame row). -/
structure ScheduleRow where
  section_id : String
  course_code : String
  course_name : String
  activity_type : String
  day : String
  start_time : String
  end_time : String
  room : String
  instructor : String
  student_count : Nat
deriving DecidableEq

/-- The `day_order` map: Sunday..Thursday rank 0..4; pandas `.map` yields
NaN (here `none`) for any other day string. -/
def day_order (d : String) : Option Nat :=
  if d = "Sunday" then some 0
  else if d = "Monday" then some 1
  else if d = "Tuesday" then some 2
  else if d = "Wednesday" then some 3
  else if d = "Thursday" then some 4
  else none

/-- The row built for one assigned variable in `generate_schedule_dataframe`. -/
def schedule_row (csp : TimetableCSP) (p : String × DomainValue) : ScheduleRow :=
  let vi := var_info_of csp p.1
  { section_id := vi.section_id
    course_code := vi.course_id
    course_name := vi.course_name
    activity_type := vi.course_type
    day := p.2.day
    start_time := p.2.start_time
    end_time := p.2.end_time
    room := p.2.room
    instructor := p.2.instructor_name
    student_count := vi.student_count }

/-- Order on the day rank: pandas `sort_values` places NaN rows last. -/
def day_rank_le : Option Nat → Option Nat → Bool
  | none, none => true
  | none, some _ => false
  | some _, none => true
  | some a, some b => decide (a ≤ b)

/-- The `sort_values(['Day_Order', 'Start_Time', 'Section_ID'])` key order.
pandas' default (unstable) quicksort fixes no order between rows whose three
keys are all equal; the stable `mergeSort` used below realizes one of its
admissible outcomes. -/
def row_le (r s : ScheduleRow) : Bool :=
  if day_order r.day = day_order s.day then
    if r.start_time = s.start_time then decide (r.section_id ≤ s.section_id)
    else decide (r.start_time < s.start_time)
  else day_rank_le (day_order r.day) (day_order s.day)

/-- Models `generate_schedule_dataframe`: `None` for an empty assignment
(`if not self.assignment`), otherwise one row per assigned variable, sorted
by day rank, start time, section id. -/
def generate_schedule_dataframe (csp : TimetableCSP) (assignment : Assignment) :
    Option (List ScheduleRow) :=
  if assignment.isEmpty then none
  else some ((assignment.map (schedule_row csp)).mergeSort row_le)

/-! ## Reachable assignment states and the no-clash invariants -/

/-- Assignment states the search can pass through: the empty dict that
`backtracking_search` starts from, plus every state obtained by assigning a
consistency-checked domain candidate to the variable the search selected.
Unassignment (`del self.assignment[var]`) returns to the predecessor state,
which is already in the set, so the set is closed under both `assign` and
`unassign` steps of `backtrack`. -/
inductive Reachable (csp : TimetableCSP) : Assignment → Prop where
  | init : Reachable csp []
  | assign {a : Assignment} {var : String} {value : DomainValue} :
      Reachable csp a →
      select_unassigned_variable csp a = some var →
      value ∈ domain_of csp var →
      is_consistent csp a var value = true →
      Reachable csp (a ++ [(var, value)])

/-- The three no-clash invariants on an assignment state: no two distinct
assigned variables share (room, timeslot); no two share a non-placeholder
instructor and a timeslot; no two of the same section share a timeslot. -/
def NoClash (csp : TimetableCSP) (a : Assignment) : Prop :=
  ∀ p ∈ a, ∀ q ∈ a, p.1 ≠ q.1 →
    (¬(p.2.room = q.2.room ∧ p.2.timeslot_id = q.2.timeslot_id)) ∧
    (¬(p.2.instructor_id = q.2.instructor_id ∧ p.2.instructor_id ≠ "UNASSIGNED"
        ∧ p.2.timeslot_id = q.2.timeslot_id)) ∧
    (¬((var_info_of csp p.1).section_id = (var_info_of csp q.1).section_id
        ∧ p.2.timeslot_id = q.2.timeslot_id))

/-! ## Spec-side room-matching predicates (refinement target for the first
unrelaxed pass) -/

/-- A type tag is lecture-type when its lowercased string mentions
`lecture` (the vocabulary the code itself uses). -/
def mentions_lecture (t : String) : Prop := pyIn "lecture" (pyLower t) = true

/-- A type tag is lab-type when its lowercased string mentions `lab`. -/
def mentions_lab (t : String) : Prop := pyIn "lab" (pyLower t) = true

/-- Follows the spec's words (§4.2 step 1): a room qualifies in the first
pass iff its type is compatible with the course type — a lecture-type room
for a lecture-type course, a lab-type room for a lab-type course, either of
those two room types for a combined lecture-and-lab course — and its
capacity is at least the section's student count. -/
def room_qualifies_spec (room_type course_type : String)
    (capacity student_count : Nat) : Prop :=
  ((mentions_lecture course_type ∧ mentions_lecture room_type)
    ∨ (mentions_lab course_type ∧ mentions_lab room_type)
    ∨ (mentions_lecture course_type ∧ mentions_lab course_type
        ∧ (mentions_lecture room_type ∨ mentions_lab room_type)))
  ∧ capacity ≥ student_count

/-- The amendment forced by the counterexample: in the code's first pass a
combined lecture-and-lab course accepts a room of any type whatsoever, not
just the two compatible room types. -/
def room_qualifies_spec_amended (room_type course_type : String)
    (capacity student_count : Nat) : Prop :=
  ((mentions_lecture course_type ∧ mentions_lecture room_type)
    ∨ (mentions_lab course_type ∧ mentions_lab room_type)
    ∨ (mentions_lecture course_type ∧ mentions_lab course_type))
  ∧ capacity ≥ student_count

/-- Projection of a parsed instructor entry that forgets the preference
field: the id, the name and the qualification list — exactly the content the
domain constructor and the search can observe. -/
def stripPref (p : String × InstrInfo) : String × String × List String :=
  (p.1, p.2.name, p.2.courses)

/-! ## Concrete catalogs used by counterexamples and witnesses -/

/-- Two sections needing the same course, one room, one timeslot, no
qualified instructor: the room clash makes a complete assignment impossible
(spec scenario A). -/
def dataTwoSections : InputData :=
  { courses := [⟨"C1", "Algebra", "Lecture", 3⟩]
    instructors := []
    rooms := [⟨"R1", "Lecture", 100⟩]
    timeslots := [⟨"T1", "Monday", "09:00", "10:00"⟩]
    sections := [⟨"S1", 30, "C1"⟩, ⟨"S2", 25, "C1"⟩] }

/-- One variable whose domain has three rooms; used to drive the iteration
counter past a small budget during unwinding. -/
def dataThreeRooms : InputData :=
  { courses := [⟨"C1", "Algebra", "Lecture", 3⟩]
    instructors := []
    rooms := [⟨"R1", "Lecture", 100⟩, ⟨"R2", "Lecture", 80⟩, ⟨"R3", "Lecture", 60⟩]
    timeslots := [⟨"T1", "Monday", "09:00", "10:00"⟩]
    sections := [⟨"S1", 30, "C1"⟩] }

/-- A section whose course list names `CX`, which is absent from the course
catalog (spec scenario C). -/
def dataDangling : InputData :=
  { courses := [⟨"C1", "Algebra", "Lecture", 3⟩]
    instructors := []
    rooms := [⟨"R1", "Lecture", 100⟩]
    timeslots := [⟨"T1", "Monday", "09:00", "10:00"⟩]
    sections := [⟨"S1", 30, "C1, CX"⟩] }

/-- A catalog with no rooms at all: the only way a domain can end empty. -/
def dataNoRooms : InputData :=
  { courses := [⟨"C1", "Algebra", "Lecture", 3⟩]
    instructors := []
    rooms := []
    timeslots := [⟨"T1", "Monday", "09:00", "10:00"⟩]
    sections := [⟨"S1", 30, "C1"⟩] }

/-- A solvable catalog with one variable, one instructor; used as a witness
input. -/
def dataSolvable : InputData :=
  { courses := [⟨"C1", "Algebra", "Lecture", 3⟩]
    instructors := [⟨"I1", "Ada", "C1", "T1"⟩]
    rooms := [⟨"R1", "Lecture", 100⟩]
    timeslots := [⟨"T1", "Monday", "09:00", "10:00"⟩]
    sections := [⟨"S1", 30, "C1"⟩] }

/-- The same catalog as `dataSolvable` except for the instructor's
`PreferredSlots` value. -/
def dataSolvableOtherPrefs : InputData :=
  { courses := [⟨"C1", "Algebra", "Lecture", 3⟩]
    instructors := [⟨"I1", "Ada", "C1", "T9"⟩]
    rooms := [⟨"R1", "Lecture", 100⟩]
    timeslots := [⟨"T1", "Monday", "09:00", "10:00"⟩]
    sections := [⟨"S1", 30, "C1"⟩] }

/-- The model `buildCSP dataTwoSections` written out (proved equal below);
the literal form lets `simp` run the search on it step by step. -/
def cspTwoSections : TimetableCSP :=
  { instructor_courses := []
    section_courses := [("S1", ⟨30, ["C1"]⟩), ("S2", ⟨25, ["C1"]⟩)]
    courses := [("C1", ⟨"Algebra", "Lecture", 3⟩)]
    rooms := [("R1", ⟨"Lecture", 100⟩)]
    timeslots := [⟨"T1", "Monday", "09:00", "10:00"⟩]
    vars := ["S1_C1", "S2_C1"]
    variable_info := [("S1_C1", ⟨"S1", "C1", 30, "Lecture", "Algebra"⟩),
                      ("S2_C1", ⟨"S2", "C1", 25, "Lecture", "Algebra"⟩)]
    domains :=
      [("S1_C1", [⟨"R1", "T1", "Monday", "09:00", "10:00", "UNASSIGNED", "Unassigned"⟩]),
       ("S2_C1", [⟨"R1", "T1", "Monday", "09:00", "10:00", "UNASSIGNED", "Unassigned"⟩])] }

/-- The model `buildCSP dataThreeRooms` written out (proved equal below). -/
def cspThreeRooms : TimetableCSP :=
  { instructor_courses := []
    section_courses := [("S1", ⟨30, ["C1"]⟩)]
    courses := [("C1", ⟨"Algebra", "Lecture", 3⟩)]
    rooms := [("R1", ⟨"Lecture", 100⟩), ("R2", ⟨"Lecture", 80⟩), ("R3", ⟨"Lecture", 60⟩)]
    timeslots := [⟨"T1", "Monday", "09:00", "10:00"⟩]
    vars := ["S1_C1"]
    variable_info := [("S1_C1", ⟨"S1", "C1", 30, "Lecture", "Algebra"⟩)]
    domains :=
      [("S1_C1", [⟨"R1", "T1", "Monday", "09:00", "10:00", "UNASSIGNED", "Unassigned"⟩,
                  ⟨"R2", "T1", "Monday", "09:00", "10:00", "UNASSIGNED", "Unassigned"⟩,
                  ⟨"R3", "T1", "Monday", "09:00", "10:00", "UNASSIGNED", "Unassigned"⟩])] }

/-- The sole domain candidate of both variables of `cspTwoSections`, and the
first of the three candidates of `cspThreeRooms`. -/
def valR1 : DomainValue :=
  ⟨"R1", "T1", "Monday", "09:00", "10:00", "UNASSIGNED", "Unassigned"⟩

/-- The second domain candidate of `cspThreeRooms`. -/
def valR2 : DomainValue :=
  ⟨"R2", "T1", "Monday", "09:00", "10:00", "UNASSIGNED", "Unassigned"⟩

/-- The third domain candidate of `cspThreeRooms`. -/
def valR3 : DomainValue :=
  ⟨"R3", "T1", "Monday", "09:00", "10:00", "UNASSIGNED", "Unassigned"⟩

/-! # Theorems

First the one-step unfolding laws of the search, mirroring the branches of
`backtrack()`, then general lemmas, then the claim theorems. -/

theorem backtrack_budget {csp : TimetableCSP} {m : Nat} {a : Assignment} {it : Nat}
    (h : it + 1 ≥ m) : backtrack csp m a it = (false, a, it + 1) := by
  rw [backtrack]
  simp [h]

theorem backtrack_complete {csp : TimetableCSP} {m : Nat} {a : Assignment} {it : Nat}
    (hb : ¬ it + 1 ≥ m) (hl : a.length = csp.vars.length) :
    backtrack csp m a it = (true, a, it + 1) := by
  rw [backtrack]
  simp [hb, hl]

theorem backtrack_select_none {csp : TimetableCSP} {m : Nat} {a : Assignment} {it : Nat}
    (hb : ¬ it + 1 ≥ m) (hl : ¬ a.length = csp.vars.length)
    (hsel : select_unassigned_variable csp a = none) :
    backtrack csp m a it = (false, a, it + 1) := by
  rw [backtrack]
  simp only [hb, hl, if_neg, if_false, ite_false]
  split
  · rfl
  · rename_i var heq
    rw [hsel] at heq
    cases heq

theorem backtrack_step {csp : TimetableCSP} {m : Nat} {a : Assignment} {it : Nat}
    {var : String} (hb : ¬ it + 1 ≥ m) (hl : ¬ a.length = csp.vars.length)
    (hsel : select_unassigned_variable csp a = some var) :
    backtrack csp m a it = try_values csp m a var (domain_of csp var) (it + 1) := by
  rw [backtrack]
  simp only [hb, hl, if_neg, if_false, ite_false]
  split
  · rename_i heq
    rw [hsel] at heq
    cases heq
  · rename_i var' heq
    rw [hsel] at heq
    cases heq
    rfl

theorem try_values_nil {csp : TimetableCSP} {m : Nat} {a : Assignment} {var : String}
    {it : Nat} : try_values csp m a var [] it = (false, a, it) := by
  rw [try_values]

theorem try_values_cons_true {csp : TimetableCSP} {m : Nat} {a : Assignment}
    {var : String} {value : DomainValue} {rest : List DomainValue} {it : Nat}
    (hc : is_consistent csp a var value = true)
    (hr : (backtrack csp m (a ++ [(var, value)]) it).1 = true) :
    try_values csp m a var (value :: rest) it = backtrack csp m (a ++ [(var, value)]) it := by
  rw [try_values]
  simp [hc, hr]

theorem try_values_cons_false {csp : TimetableCSP} {m : Nat} {a : Assignment}
    {var : String} {value : DomainValue} {rest : List DomainValue} {it : Nat}
    (hc : is_consistent csp a var value = true)
    (hr : (backtrack csp m (a ++ [(var, value)]) it).1 = false) :
    try_values csp m a var (value :: rest) it
      = try_values csp m a var rest (backtrack csp m (a ++ [(var, value)]) it).2.2 := by
  rw [try_values]
  simp [hc, hr]

theorem try_values_cons_inconsistent {csp : TimetableCSP} {m : Nat} {a : Assignment}
    {var : String} {value : DomainValue} {rest : List DomainValue} {it : Nat}
    (hc : is_consistent csp a var value = false) :
    try_values csp m a var (value :: rest) it = try_values csp m a var rest it := by
  rw [try_values]
  simp [hc]

/-! ## Monotonicity of the iteration counter -/

theorem backtrack_it_lt (csp : TimetableCSP) (m : Nat) :
    ∀ (a : Assignment) (it : Nat), it < (backtrack csp m a it).2.2 := by
  refine backtrack.induct csp m
    (fun a it => it < (backtrack csp m a it).2.2)
    (fun a var values it => it ≤ (try_values csp m a var values it).2.2)
    ?_ ?_ ?_ ?_ ?_ ?_ ?_ ?_
  · intro a it
    dsimp only
    intro h
    rw [backtrack_budget h]
    show it < it + 1
    omega
  · intro a it
    dsimp only
    intro hb hl
    rw [backtrack_complete hb hl]
    show it < it + 1
    omega
  · intro a it
    dsimp only
    intro hb hl hsel
    rw [backtrack_select_none hb hl hsel]
    show it < it + 1
    omega
  · intro a it
    dsimp only
    intro hb hl var hsel ih
    rw [backtrack_step hb hl hsel]
    omega
  · intro a var it
    rw [try_values_nil]
  · intro a var it value rest hc
    dsimp only
    intro hr ih
    rw [try_values_cons_true hc hr]
    omega
  · intro a var it value rest hc
    dsimp only
    intro hr ih1 ih2
    rw [try_values_cons_false hc (Bool.not_eq_true _ ▸ hr)]
    omega
  · intro a var it value rest hc ih
    rw [try_values_cons_inconsistent (Bool.not_eq_true _ ▸ hc)]
    exact ih

theorem try_values_it_le (csp : TimetableCSP) (m : Nat) (var : String) :
    ∀ (values : List DomainValue) (a : Assignment) (it : Nat),
      it ≤ (try_values csp m a var values it).2.2 := by
  intro values
  induction values with
  | nil =>
    intro a it
    rw [try_values_nil]
  | cons value rest ih =>
    intro a it
    by_cases hc : is_consistent csp a var value = true
    · by_cases hr : (backtrack csp m (a ++ [(var, value)]) it).1 = true
      · rw [try_values_cons_true hc hr]
        exact Nat.le_of_lt (backtrack_it_lt csp m _ it)
      · rw [try_values_cons_false hc (Bool.not_eq_true _ ▸ hr)]
        have h1 := backtrack_it_lt csp m (a ++ [(var, value)]) it
        have h2 := ih a (backtrack csp m (a ++ [(var, value)]) it).2.2
        omega
    · rw [try_values_cons_inconsistent (Bool.not_eq_true _ ▸ hc)]
      exact ih a it

/-! ## Failure returns the entry assignment unchanged

Every assignment made inside a `backtrack()` frame is paired with a
`del self.assignment[var]` before the frame returns `False`, so a failing
call leaves `self.assignment` exactly as it found it. -/

theorem backtrack_fail_assignment (csp : TimetableCSP) (m : Nat) :
    ∀ (a : Assignment) (it : Nat),
      (backtrack csp m a it).1 = false → (backtrack csp m a it).2.1 = a := by
  refine backtrack.induct csp m
    (fun a it => (backtrack csp m a it).1 = false → (backtrack csp m a it).2.1 = a)
    (fun a var values it =>
      (try_values csp m a var values it).1 = false
        → (try_values csp m a var values it).2.1 = a)
    ?_ ?_ ?_ ?_ ?_ ?_ ?_ ?_
  · intro a it
    dsimp only
    intro h
    rw [backtrack_budget h]
    intro
    rfl
  · intro a it
    dsimp only
    intro hb hl
    rw [backtrack_complete hb hl]
    intro hfalse
    cases hfalse
  · intro a it
    dsimp only
    intro hb hl hsel
    rw [backtrack_select_none hb hl hsel]
    intro
    rfl
  · intro a it
    dsimp only
    intro hb hl var hsel ih
    rw [backtrack_step hb hl hsel]
    exact ih
  · intro a var it
    rw [try_values_nil]
    intro
    rfl
  · intro a var it value rest hc
    dsimp only
    intro hr ih
    rw [try_values_cons_true hc hr]
    intro hfalse
    rw [hr] at hfalse
    cases hfalse
  · intro a var it value rest hc
    dsimp only
    intro hr ih1 ih2
    rw [try_values_cons_false hc (Bool.not_eq_true _ ▸ hr)]
    exact ih2
  · intro a var it value rest hc ih
    rw [try_values_cons_inconsistent (Bool.not_eq_true _ ▸ hc)]
    exact ih

/-! ## Selection lemmas -/

theorem select_some_mem {csp : TimetableCSP} {a : Assignment} {var : String}
    (h : select_unassigned_variable csp a = some var) :
    var ∈ csp.vars.filter (fun x => !(assignedB a x)) := by
  unfold select_unassigned_variable at h
  by_cases he : (csp.vars.filter (fun x => !(assignedB a x))).isEmpty
  · rw [if_pos he] at h
    cases h
  · rw [if_neg he] at h
    exact ((List.mergeSort_perm _ _).mem_iff).mp
      (List.mem_of_mem_head? (Option.mem_def.mpr h))

theorem select_some_unassigned {csp : TimetableCSP} {a : Assignment} {var : String}
    (h : select_unassigned_variable csp a = some var) : assignedB a var = false := by
  have hm := select_some_mem h
  rw [List.mem_filter] at hm
  simpa using hm.2

/-! ## The no-clash invariants -/

theorem noClash_append {csp : TimetableCSP} {a : Assignment} {var : String}
    {value : DomainValue} (hnc : NoClash csp a) (hvar : assignedB a var = false)
    (hc : is_consistent csp a var value = true) :
    NoClash csp (a ++ [(var, value)]) := by
  have hall : ∀ x ∈ a,
      (¬(value.room = x.2.room ∧ value.timeslot_id = x.2.timeslot_id)) ∧
      (¬(value.instructor_id = x.2.instructor_id
          ∧ value.timeslot_id = x.2.timeslot_id
          ∧ value.instructor_id ≠ "UNASSIGNED")) ∧
      (¬((var_info_of csp var).section_id = (var_info_of csp x.1).section_id
          ∧ value.timeslot_id = x.2.timeslot_id)) := by
    intro x hx
    unfold is_consistent at hc
    rw [List.all_eq_true] at hc
    have h := hc x hx
    simp [Bool.and_assoc] at h
    refine ⟨fun hcon => ?_, fun hcon => ?_, fun hcon => ?_⟩ <;> tauto
  have hfresh : ∀ x ∈ a, x.1 ≠ var := by
    intro x hx hxv
    have : assignedB a var = true := by
      unfold assignedB
      rw [List.any_eq_true]
      exact ⟨x, hx, by simp [hxv]⟩
    rw [hvar] at this
    cases this
  intro p hp q hq hneq
  rw [List.mem_append, List.mem_singleton] at hp hq
  rcases hp with hp | hp <;> rcases hq with hq | hq
  · exact hnc p hp q hq hneq
  · subst hq
    have h3 := hall p hp
    refine ⟨fun hcon => h3.1 ⟨hcon.1.symm, hcon.2.symm⟩, fun hcon => ?_, fun hcon => ?_⟩
    · exact h3.2.1 ⟨hcon.1.symm, hcon.2.2.symm, hcon.1 ▸ hcon.2.1⟩
    · exact h3.2.2 ⟨hcon.1.symm, hcon.2.symm⟩
  · subst hp
    have h3 := hall q hq
    refine ⟨fun hcon => h3.1 ⟨hcon.1, hcon.2⟩, fun hcon => ?_, fun hcon => ?_⟩
    · exact h3.2.1 ⟨hcon.1, hcon.2.2, hcon.2.1⟩
    · exact h3.2.2 ⟨hcon.1, hcon.2⟩
  · subst hp
    subst hq
    exact absurd rfl hneq

theorem reachable_noClash (csp : TimetableCSP) :
    ∀ a : Assignment, Reachable csp a → NoClash csp a := by
  intro a h
  induction h with
  | init =>
    intro p hp
    cases hp
  | assign hr hsel hdom hcons ih =>
    exact noClash_append ih (select_some_unassigned hsel) hcons

/-- The search only moves between states of `Reachable`: from a reachable
entry assignment, the assignment a `backtrack()` call returns is reachable. -/
theorem backtrack_reachable (csp : TimetableCSP) (m : Nat) :
    ∀ (a : Assignment) (it : Nat),
      Reachable csp a → Reachable csp (backtrack csp m a it).2.1 := by
  refine backtrack.induct csp m
    (fun a it => Reachable csp a → Reachable csp (backtrack csp m a it).2.1)
    (fun a var values it =>
      Reachable csp a → select_unassigned_variable csp a = some var
        → (∀ x ∈ values, x ∈ domain_of csp var)
        → Reachable csp (try_values csp m a var values it).2.1)
    ?_ ?_ ?_ ?_ ?_ ?_ ?_ ?_
  · intro a it
    dsimp only
    intro h
    rw [backtrack_budget h]
    exact id
  · intro a it
    dsimp only
    intro hb hl
    rw [backtrack_complete hb hl]
    exact id
  · intro a it
    dsimp only
    intro hb hl hsel
    rw [backtrack_select_none hb hl hsel]
    exact id
  · intro a it
    dsimp only
    intro hb hl var hsel ih
    rw [backtrack_step hb hl hsel]
    intro hreach
    exact ih hreach hsel (fun x hx => hx)
  · intro a var it
    rw [try_values_nil]
    intro h _ _
    exact h
  · intro a var it value rest hc
    dsimp only
    intro hr ih
    rw [try_values_cons_true hc hr]
    intro hreach hsel hsub
    exact ih (Reachable.assign hreach hsel (hsub value (List.mem_cons_self value rest)) hc)
  · intro a var it value rest hc
    dsimp only
    intro hr ih1 ih2
    rw [try_values_cons_false hc (Bool.not_eq_true _ ▸ hr)]
    intro hreach hsel hsub
    exact ih2 hreach hsel (fun x hx => hsub x (List.mem_cons_of_mem value hx))
  · intro a var it value rest hc ih
    rw [try_values_cons_inconsistent (Bool.not_eq_true _ ▸ hc)]
    intro hreach hsel hsub
    exact ih hreach hsel (fun x hx => hsub x (List.mem_cons_of_mem value hx))

/-! ## Concrete runs of the search -/

theorem twoSections_model : buildCSP dataTwoSections = cspTwoSections := by decide

theorem threeRooms_model : buildCSP dataThreeRooms = cspThreeRooms := by decide

theorem twoSections_select_first :
    select_unassigned_variable cspTwoSections [] = some "S1_C1" := by
  simp +decide [select_unassigned_variable, cspTwoSections, List.mergeSort, List.merge,
    domain_of, dictGet, assignedB]

theorem twoSections_select_second :
    select_unassigned_variable cspTwoSections [("S1_C1", valR1)] = some "S2_C1" := by
  simp +decide [select_unassigned_variable, cspTwoSections, valR1, List.mergeSort,
    List.merge, domain_of, dictGet, assignedB]

/-- The inner recursive call of the `cspTwoSections` run: with `S1_C1`
assigned, the only candidate for `S2_C1` clashes on the room, so the call
fails and — after unwinding — returns the entry assignment unchanged. -/
theorem twoSections_inner :
    backtrack cspTwoSections 1000 [("S1_C1", valR1)] 1
      = (false, [("S1_C1", valR1)], 2) := by
  rw [backtrack_step (by omega) (by decide) twoSections_select_second]
  rw [show domain_of cspTwoSections "S2_C1" = [valR1] from by decide]
  rw [try_values_cons_inconsistent (by decide)]
  rw [try_values_nil]

/-- The full failing run on `cspTwoSections`: the search assigns `S1_C1`,
fails on `S2_C1`, unwinds everything and ends with the empty assignment
after 2 iterations. -/
theorem twoSections_search :
    backtracking_search cspTwoSections 1000 = (false, [], 2) := by
  unfold backtracking_search
  rw [backtrack_step (by omega) (by decide) twoSections_select_first]
  rw [show domain_of cspTwoSections "S1_C1" = [valR1] from by decide]
  simp only [Nat.zero_add]
  rw [try_values_cons_false (by decide)
    (by simp only [List.nil_append]; rw [twoSections_inner])]
  simp only [List.nil_append]
  rw [twoSections_inner]
  rw [try_values_nil]

theorem threeRooms_select_first :
    select_unassigned_variable cspThreeRooms [] = some "S1_C1" := by
  simp +decide [select_unassigned_variable, cspThreeRooms, List.mergeSort, List.merge,
    domain_of, dictGet, assignedB]

/-- The budget-2 run on `cspThreeRooms`: the first step consumes the budget;
each of the three candidate trials still increments the counter while
failing immediately, so the final count is 4, exceeding the budget of 2. -/
theorem threeRooms_search :
    backtracking_search cspThreeRooms 2 = (false, [], 4) := by
  unfold backtracking_search
  rw [backtrack_step (by omega) (by decide) threeRooms_select_first]
  rw [show domain_of cspThreeRooms "S1_C1" = [valR1, valR2, valR3] from by decide]
  simp only [Nat.zero_add]
  rw [try_values_cons_false (by decide) (by rw [backtrack_budget (by omega)])]
  rw [backtrack_budget (by omega)]
  show try_values cspThreeRooms 2 [] "S1_C1" [valR2, valR3] 2 = (false, [], 4)
  rw [try_values_cons_false (by decide) (by rw [backtrack_budget (by omega)])]
  rw [backtrack_budget (by omega)]
  show try_values cspThreeRooms 2 [] "S1_C1" [valR3] 3 = (false, [], 4)
  rw [try_values_cons_false (by decide) (by rw [backtrack_budget (by omega)])]
  rw [backtrack_budget (by omega)]
  show try_values cspThreeRooms 2 [] "S1_C1" [] 4 = (false, [], 4)
  rw [try_values_nil]

/-! ## Claim C1 -/

/-- C1: throughout backtracking search — on every assignment state reachable
via the assign/unassign steps of `backtrack`, the set described by
`Reachable` — and at termination of any `backtrack` call started from such a
state, the assignment never contains two distinct assigned variables that
share (room, timeslot), never two that share a non-placeholder instructor
and a timeslot, and never two variables of the same section that share a
timeslot. -/
theorem claim_C1 (csp : TimetableCSP) (m it : Nat) (a : Assignment)
    (h : Reachable csp a) :
    NoClash csp a ∧ NoClash csp (backtrack csp m a it).2.1 :=
  ⟨reachable_noClash csp a h,
   reachable_noClash csp _ (backtrack_reachable csp m a it h)⟩

theorem claim_C1_witness :
    NoClash (buildCSP dataTwoSections) [] ∧
      NoClash (buildCSP dataTwoSections)
        (backtrack (buildCSP dataTwoSections) 1000 [] 0).2.1 :=
  claim_C1 (buildCSP dataTwoSections) 1000 0 [] Reachable.init

/-! ## Claim C3 -/

/-- C3 counterexample: on `dataTwoSections` (two sections competing for one
room at one timeslot) the search fails after reaching the nonempty partial
assignment `[("S1_C1", valR1)]`, yet the state at termination is the EMPTY
assignment and the iteration count lives only in the returned triple's model
of the closure-local counter: the partial assignment built during search is
discarded by unwinding, not preserved for the caller. -/
theorem claim_C3_counterexample :
    backtracking_search (buildCSP dataTwoSections) 1000 = (false, [], 2)
      ∧ Reachable (buildCSP dataTwoSections) [("S1_C1", valR1)] := by
  constructor
  · rw [twoSections_model, twoSections_search]
  · rw [twoSections_model]
    exact Reachable.assign Reachable.init twoSections_select_first (by decide) (by decide)

/-- C3 (amended): when `backtracking_search` terminates without a complete
assignment it returns the failure flag, but the partial assignment is not
preserved: the paired `del self.assignment[var]` of every frame unwinds every
binding, so `self.assignment` at termination is exactly the empty dict the
search started from; the iteration count is printed, not returned. -/
theorem claim_C3_amended (csp : TimetableCSP) (m : Nat)
    (h : (backtracking_search csp m).1 = false) :
    (backtracking_search csp m).2.1 = [] :=
  backtrack_fail_assignment csp m [] 0 h

theorem claim_C3_amended_witness :
    (backtracking_search (buildCSP dataTwoSections) 1000).1 = false ∧
      (backtracking_search (buildCSP dataTwoSections) 1000).2.1 = [] :=
  ⟨by rw [twoSections_model, twoSections_search],
   claim_C3_amended (buildCSP dataTwoSections) 1000
     (by rw [twoSections_model, twoSections_search])⟩

/-! ## Claim C4 -/

/-- C4 counterexample: on `dataThreeRooms` with `max_iterations = 2` the
search returns with the iteration counter at 4: after the budget is hit,
every remaining candidate trial during unwinding still increments the
counter, so the counter exceeds the configured maximum at return. -/
theorem claim_C4_counterexample :
    2 < (backtracking_search (buildCSP dataThreeRooms) 2).2.2
      ∧ backtracking_search (buildCSP dataThreeRooms) 2 = (false, [], 4) := by
  rw [threeRooms_model, threeRooms_search]
  exact ⟨by norm_num, rfl⟩

/-- C4 (amended): the iteration counter strictly increases across every
recursive step, and the search always terminates (`backtrack` is a total
function of its arguments); once the counter has reached the budget, a step
fails immediately — making no assignment, but still incrementing the
counter once — so the count at return may exceed `max_iterations`. -/
theorem claim_C4_amended (csp : TimetableCSP) (m : Nat) :
    (∀ (a : Assignment) (it : Nat), it < (backtrack csp m a it).2.2)
      ∧ (∀ (a : Assignment) (it : Nat), it + 1 ≥ m
          → backtrack csp m a it = (false, a, it + 1)) :=
  ⟨backtrack_it_lt csp m, fun _ _ h => backtrack_budget h⟩

theorem claim_C4_amended_witness :
    0 < (backtrack cspThreeRooms 2 [] 0).2.2
      ∧ (5 + 1 ≥ 2 ∧ backtrack cspThreeRooms 2 [] 5 = (false, [], 5 + 1)) :=
  ⟨(claim_C4_amended cspThreeRooms 2).1 [] 0,
   by omega, (claim_C4_amended cspThreeRooms 2).2 [] 5 (by omega)⟩

/-! ## Claim C2 -/

theorem mem_dictInsert {α : Type} {d : List (String × α)} {k : String} {v : α}
    {p : String × α} (h : p ∈ dictInsert d k v) : p ∈ d ∨ p = (k, v) := by
  induction d with
  | nil =>
    right
    simpa [dictInsert] using h
  | cons q rest ih =>
    obtain ⟨k', v'⟩ := q
    unfold dictInsert at h
    by_cases hk : k' = k
    · rw [if_pos hk] at h
      rcases List.mem_cons.mp h with h | h
      · right
        exact h
      · left
        exact List.mem_cons_of_mem _ h
    · rw [if_neg hk] at h
      rcases List.mem_cons.mp h with h | h
      · left
        exact h ▸ List.mem_cons_self _ _
      · rcases ih h with h | h
        · left
          exact List.mem_cons_of_mem _ h
        · right
          exact h

theorem dictContains_iff {α : Type} {d : List (String × α)} {k : String} :
    dictContains d k = true ↔ ∃ v, dictGet d k = some v := by
  unfold dictContains
  exact Option.isSome_iff_exists

theorem add_course_var_fst_mono {courses : List (String × CourseInfo)}
    {sc : String × SectInfo} {acc : List String × List (String × VarInfo)}
    {c v : String} (h : v ∈ acc.1) : v ∈ (add_course_var courses sc acc c).1 := by
  unfold add_course_var
  cases dictGet courses c with
  | none => exact h
  | some cinfo => exact List.mem_append_left _ h

theorem foldl_course_fst_mono {courses : List (String × CourseInfo)}
    {sc : String × SectInfo} {v : String} :
    ∀ {cs : List String} {acc : List String × List (String × VarInfo)},
      v ∈ acc.1 → v ∈ (cs.foldl (add_course_var courses sc) acc).1 := by
  intro cs
  induction cs with
  | nil => exact fun h => h
  | cons c rest ih => exact fun h => ih (add_course_var_fst_mono h)

theorem foldl_section_fst_mono {courses : List (String × CourseInfo)} {v : String} :
    ∀ {scs : List (String × SectInfo)} {acc : List String × List (String × VarInfo)},
      v ∈ acc.1 → v ∈ (scs.foldl (add_section_vars courses) acc).1 := by
  intro scs
  induction scs with
  | nil => exact fun h => h
  | cons sc rest ih => exact fun h => ih (foldl_course_fst_mono h)

theorem add_course_var_info {courses : List (String × CourseInfo)}
    {sc : String × SectInfo} {acc : List String × List (String × VarInfo)} {c : String}
    (h : ∀ p ∈ acc.2, dictContains courses p.2.course_id = true) :
    ∀ p ∈ (add_course_var courses sc acc c).2,
      dictContains courses p.2.course_id = true := by
  unfold add_course_var
  cases hc : dictGet courses c with
  | none => exact h
  | some cinfo =>
    intro p hp
    rcases mem_dictInsert hp with hp | hp
    · exact h p hp
    · subst hp
      exact dictContains_iff.mpr ⟨cinfo, hc⟩

theorem foldl_course_info {courses : List (String × CourseInfo)}
    {sc : String × SectInfo} :
    ∀ {cs : List String} {acc : List String × List (String × VarInfo)},
      (∀ p ∈ acc.2, dictContains courses p.2.course_id = true)
        → ∀ p ∈ (cs.foldl (add_course_var courses sc) acc).2,
            dictContains courses p.2.course_id = true := by
  intro cs
  induction cs with
  | nil => exact fun h => h
  | cons c rest ih => exact fun h => ih (add_course_var_info h)

theorem foldl_section_info {courses : List (String × CourseInfo)} :
    ∀ {scs : List (String × SectInfo)} {acc : List String × List (String × VarInfo)},
      (∀ p ∈ acc.2, dictContains courses p.2.course_id = true)
        → ∀ p ∈ (scs.foldl (add_section_vars courses) acc).2,
            dictContains courses p.2.course_id = true := by
  intro scs
  induction scs with
  | nil => exact fun h => h
  | cons sc rest ih => exact fun h => ih (foldl_course_info h)

theorem mem_foldl_course {courses : List (String × CourseInfo)} {sc : String × SectInfo}
    {c : String} (hcon : dictContains courses c = true) :
    ∀ {cs : List String} {acc : List String × List (String × VarInfo)},
      c ∈ cs → varName sc.1 c ∈ (cs.foldl (add_course_var courses sc) acc).1 := by
  intro cs
  induction cs with
  | nil =>
    intro acc h
    cases h
  | cons c' rest ih =>
    intro acc h
    rcases List.mem_cons.mp h with h | h
    · subst h
      rw [List.foldl_cons]
      refine foldl_course_fst_mono ?_
      obtain ⟨cinfo, hg⟩ := dictContains_iff.mp hcon
      unfold add_course_var
      rw [hg]
      exact List.mem_append_right _ (List.mem_singleton.mpr rfl)
    · exact ih h

theorem mem_foldl_section {courses : List (String × CourseInfo)}
    {sc : String × SectInfo} {c : String} (hcon : dictContains courses c = true)
    (hc : c ∈ sc.2.courses) :
    ∀ {scs : List (String × SectInfo)} {acc : List String × List (String × VarInfo)},
      sc ∈ scs → varName sc.1 c ∈ (scs.foldl (add_section_vars courses) acc).1 := by
  intro scs
  induction scs with
  | nil =>
    intro acc h
    cases h
  | cons sc' rest ih =>
    intro acc h
    rcases List.mem_cons.mp h with h | h
    · subst h
      rw [List.foldl_cons]
      refine foldl_section_fst_mono ?_
      unfold add_section_vars
      exact mem_foldl_course hcon hc
    · exact ih h

/-- C2 counterexample: on `dataDangling`, whose section `S1` lists the
course id `CX` absent from the course catalog, model building does NOT fail:
it returns a complete model in which the dangling pair is silently skipped
(no variable `S1_CX`) while the valid pair still gets its variable. The
embedded `_create_variables` is a total function — the Python code has no
raise path — so no `ConstructionError` exists to abort the pipeline. -/
theorem claim_C2_counterexample :
    (buildCSP dataDangling).vars = ["S1_C1"]
      ∧ dictContains (buildCSP dataDangling).courses "CX" = false := by
  exact ⟨by decide, by decide⟩

/-- C2 (amended): model building never fails; a (section, course) pair whose
course id is absent from the course catalog is silently skipped — no
variable-info entry ever references an absent course — while every pair
whose course id is present gets its variable. -/
theorem claim_C2_amended (data : InputData) :
    (∀ p ∈ (buildCSP data).variable_info,
        dictContains (buildCSP data).courses p.2.course_id = true)
      ∧ (∀ sc ∈ (buildCSP data).section_courses, ∀ c ∈ sc.2.courses,
          dictContains (buildCSP data).courses c = true
            → varName sc.1 c ∈ (buildCSP data).vars) := by
  constructor
  · intro p hp
    refine foldl_section_info ?_ p hp
    intro q hq
    cases hq
  · intro sc hsc c hc hcon
    exact mem_foldl_section hcon hc hsc

/-! ## Claims C5 and C6: domain emptiness and the fallback floor -/

theorem dictGet_mem {α : Type} {d : List (String × α)} {k : String} {v : α}
    (h : dictGet d k = some v) : (k, v) ∈ d := by
  induction d with
  | nil => cases h
  | cons q rest ih =>
    obtain ⟨k', v'⟩ := q
    unfold dictGet at h
    by_cases hk : k' = k
    · rw [if_pos hk] at h
      cases h
      subst hk
      exact List.mem_cons_self _ _
    · rw [if_neg hk] at h
      exact List.mem_cons_of_mem _ (ih h)

theorem dictGet_dictInsert {α : Type} (d : List (String × α)) (k : String) (v : α)
    (k' : String) :
    dictGet (dictInsert d k v) k' = if k = k' then some v else dictGet d k' := by
  induction d with
  | nil =>
    unfold dictInsert dictGet
    rfl
  | cons q rest ih =>
    obtain ⟨k1, v1⟩ := q
    unfold dictInsert
    by_cases h1 : k1 = k
    · subst h1
      by_cases h2 : k1 = k' <;> simp [dictGet, h2]
    · rw [if_neg h1]
      by_cases h2 : k1 = k'
      · subst h2
        have : ¬ k = k1 := fun hc => h1 hc.symm
        simp [dictGet, this]
      · simp [dictGet, h2, ih]

theorem dictContains_foldl_add_domain {info : List (String × VarInfo)}
    {rooms : List (String × RoomInfo)} {ic : List (String × InstrInfo)}
    {ts : List SlotInfo} :
    ∀ (vl : List String) (doms : List (String × List DomainValue)) (v : String),
      dictContains doms v = true
        → dictContains (vl.foldl (add_domain info rooms ic ts) doms) v = true := by
  intro vl
  induction vl with
  | nil => exact fun doms v h => h
  | cons w rest ih =>
    intro doms v h
    rw [List.foldl_cons]
    refine ih _ v ?_
    unfold add_domain
    cases dictGet info w with
    | none => exact h
    | some vi =>
      unfold dictContains
      rw [dictGet_dictInsert]
      by_cases hw : w = v
      · rw [if_pos hw]
        rfl
      · rw [if_neg hw]
        exact h

theorem foldl_add_domain_values {info : List (String × VarInfo)}
    {rooms : List (String × RoomInfo)} {ic : List (String × InstrInfo)}
    {ts : List SlotInfo} (P : List DomainValue → Prop)
    (hP : ∀ vi : VarInfo,
      P (build_domain ic ts (suitable_rooms rooms vi.course_type vi.student_count)
          (qualified_instructors ic vi.course_id))) :
    ∀ (vl : List String) (doms : List (String × List DomainValue)),
      (∀ p ∈ doms, P p.2)
        → ∀ p ∈ vl.foldl (add_domain info rooms ic ts) doms, P p.2 := by
  intro vl
  induction vl with
  | nil => exact fun doms h => h
  | cons w rest ih =>
    intro doms h
    rw [List.foldl_cons]
    refine ih _ ?_
    unfold add_domain
    cases dictGet info w with
    | none => exact h
    | some vi =>
      intro p hp
      rcases mem_dictInsert hp with hp | hp
      · exact h p hp
      · subst hp
        exact hP vi

theorem create_domains_covers {info : List (String × VarInfo)}
    {rooms : List (String × RoomInfo)} {ic : List (String × InstrInfo)}
    {ts : List SlotInfo} :
    ∀ (vl : List String) (doms : List (String × List DomainValue)) (v : String),
      v ∈ vl → dictContains info v = true
        → dictContains (vl.foldl (add_domain info rooms ic ts) doms) v = true := by
  intro vl
  induction vl with
  | nil =>
    intro doms v h
    cases h
  | cons w rest ih =>
    intro doms v hv hinfo
    rcases List.mem_cons.mp hv with hv | hv
    · subst hv
      rw [List.foldl_cons]
      refine dictContains_foldl_add_domain rest _ v ?_
      obtain ⟨vi, hg⟩ := dictContains_iff.mp hinfo
      unfold add_domain
      rw [hg]
      unfold dictContains
      rw [dictGet_dictInsert, if_pos rfl]
      rfl
    · rw [List.foldl_cons]
      exact ih _ v hv hinfo

theorem add_course_var_keys {courses : List (String × CourseInfo)}
    {sc : String × SectInfo} {acc : List String × List (String × VarInfo)} {c : String}
    (h : ∀ v ∈ acc.1, dictContains acc.2 v = true) :
    ∀ v ∈ (add_course_var courses sc acc c).1,
      dictContains (add_course_var courses sc acc c).2 v = true := by
  unfold add_course_var
  cases dictGet courses c with
  | none => exact h
  | some cinfo =>
    intro v hv
    unfold dictContains
    rw [dictGet_dictInsert]
    rcases List.mem_append.mp hv with hv | hv
    · by_cases hn : varName sc.1 c = v
      · rw [if_pos hn]
        rfl
      · rw [if_neg hn]
        exact h v hv
    · rw [List.mem_singleton.mp hv, if_pos rfl]
      rfl

theorem foldl_course_keys {courses : List (String × CourseInfo)}
    {sc : String × SectInfo} :
    ∀ {cs : List String} {acc : List String × List (String × VarInfo)},
      (∀ v ∈ acc.1, dictContains acc.2 v = true)
        → ∀ v ∈ (cs.foldl (add_course_var courses sc) acc).1,
            dictContains (cs.foldl (add_course_var courses sc) acc).2 v = true := by
  intro cs
  induction cs with
  | nil => exact fun h => h
  | cons c rest ih => exact fun h => ih (add_course_var_keys h)

theorem create_variables_keys {courses : List (String × CourseInfo)} :
    ∀ {scs : List (String × SectInfo)} {acc : List String × List (String × VarInfo)},
      (∀ v ∈ acc.1, dictContains acc.2 v = true)
        → ∀ v ∈ (scs.foldl (add_section_vars courses) acc).1,
            dictContains (scs.foldl (add_section_vars courses) acc).2 v = true := by
  intro scs
  induction scs with
  | nil => exact fun h => h
  | cons sc rest ih => exact fun h => ih (foldl_course_keys h)

theorem dictInsert_ne_nil {α : Type} (d : List (String × α)) (k : String) (v : α) :
    dictInsert d k v ≠ [] := by
  cases d with
  | nil => simp [dictInsert]
  | cons q rest =>
    obtain ⟨k', v'⟩ := q
    unfold dictInsert
    split <;> simp

theorem parse_rooms_eq_nil_iff {l : List RoomRec} : parse_rooms l = [] ↔ l = [] := by
  constructor
  · intro h
    cases l with
    | nil => rfl
    | cons r rest =>
      exfalso
      unfold parse_rooms at h
      rw [List.foldl_cons] at h
      have aux : ∀ (rest : List RoomRec) (acc : List (String × RoomInfo)), acc ≠ []
          → rest.foldl (fun d r => dictInsert d r.roomID ⟨r.rtype, r.capacity⟩) acc ≠ [] := by
        intro rest
        induction rest with
        | nil => exact fun acc h => h
        | cons r' rest' ih =>
          intro acc hacc
          rw [List.foldl_cons]
          exact ih _ (dictInsert_ne_nil _ _ _)
      exact aux rest _ (dictInsert_ne_nil _ _ _) h
  · intro h
    subst h
    rfl

theorem parse_timeslots_eq_nil_iff {l : List TimeSlotRec} :
    parse_timeslots l = [] ↔ l = [] := by
  unfold parse_timeslots
  simp

theorem suitable_rooms_ne_nil {rooms : List (String × RoomInfo)} {ct : String}
    {sc : Nat} (h : rooms ≠ []) : suitable_rooms rooms ct sc ≠ [] := by
  unfold suitable_rooms
  dsimp only
  by_cases h1 : (suitable_rooms_pass1 rooms ct sc).isEmpty
  · rw [if_pos h1]
    by_cases h2 : (suitable_rooms_pass2 rooms ct).isEmpty
    · rw [if_pos h2]
      intro hcon
      rcases List.take_eq_nil_iff.mp hcon with hcon | hcon
      · cases hcon
      · exact h (List.map_eq_nil_iff.mp hcon)
    · rw [if_neg h2]
      intro hcon
      exact h2 (by rw [hcon]; rfl)
  · rw [if_neg h1]
    intro hcon
    exact h1 (by rw [hcon]; rfl)

theorem qualified_instructors_ne_nil (ic : List (String × InstrInfo)) (cid : String) :
    qualified_instructors ic cid ≠ [] := by
  unfold qualified_instructors
  dsimp only
  by_cases h : ((ic.filter (fun p => p.2.courses.contains cid)).map Prod.fst).isEmpty
  · rw [if_pos h]
    simp
  · rw [if_neg h]
    intro hcon
    exact h (by rw [hcon]; rfl)

theorem length_flatMap_const {α β : Type} (l : List α) (f : α → List β) (c : Nat)
    (h : ∀ x ∈ l, (f x).length = c) : (l.flatMap f).length = l.length * c := by
  induction l with
  | nil => simp
  | cons x rest ih =>
    rw [List.flatMap_cons, List.length_append, h x (List.mem_cons_self x rest),
      ih (fun y hy => h y (List.mem_cons_of_mem x hy)), List.length_cons]
    ring

theorem build_domain_length (ic : List (String × InstrInfo)) (ts : List SlotInfo)
    (rl il : List String) :
    (build_domain ic ts rl il).length = rl.length * (ts.length * il.length) := by
  unfold build_domain
  exact length_flatMap_const _ _ _
    (fun r _ => length_flatMap_const _ _ _ (fun t _ => by simp))

theorem build_domain_ne_nil {ic : List (String × InstrInfo)} {ts : List SlotInfo}
    {rl il : List String} (h1 : rl ≠ []) (h2 : ts ≠ []) (h3 : il ≠ []) :
    build_domain ic ts rl il ≠ [] := by
  intro hcon
  have hlen := congrArg List.length hcon
  rw [build_domain_length] at hlen
  simp only [List.length_nil] at hlen
  rcases Nat.mul_eq_zero.mp hlen with h | h
  · exact h1 (List.eq_nil_of_length_eq_zero h)
  · rcases Nat.mul_eq_zero.mp h with h | h
    · exact h2 (List.eq_nil_of_length_eq_zero h)
    · exact h3 (List.eq_nil_of_length_eq_zero h)

theorem build_domain_eq_nil_of {ic : List (String × InstrInfo)} {ts : List SlotInfo}
    {rl il : List String} (h : rl = [] ∨ ts = []) : build_domain ic ts rl il = [] := by
  have : (build_domain ic ts rl il).length = 0 := by
    rw [build_domain_length]
    rcases h with h | h <;> subst h <;> simp
  exact List.eq_nil_of_length_eq_zero this

/-- Shared core of C5 and C6: with a nonempty room catalog and a nonempty
timeslot catalog, every created variable's domain is nonempty. -/
theorem vars_domain_ne_nil (data : InputData) (hr : data.rooms ≠ [])
    (ht : data.timeslots ≠ []) :
    ∀ v ∈ (buildCSP data).vars, domain_of (buildCSP data) v ≠ [] := by
  intro v hv
  have hrp : parse_rooms data.rooms ≠ [] := fun hc => hr (parse_rooms_eq_nil_iff.mp hc)
  have htp : parse_timeslots data.timeslots ≠ [] :=
    fun hc => ht (parse_timeslots_eq_nil_iff.mp hc)
  have hv' : v ∈ (create_variables (parse_sections data.sections)
      (parse_courses data.courses)).1 := hv
  have hinfo : dictContains (create_variables (parse_sections data.sections)
      (parse_courses data.courses)).2 v = true :=
    create_variables_keys (fun w hw => absurd hw (List.not_mem_nil w)) v hv'
  have hcov : dictContains (buildCSP data).domains v = true :=
    create_domains_covers _ _ v hv' hinfo
  obtain ⟨dom, hd⟩ := dictContains_iff.mp hcov
  have hmem := dictGet_mem hd
  have hne : dom ≠ [] := by
    refine foldl_add_domain_values (fun d => d ≠ [])
      (fun vi => build_domain_ne_nil (suitable_rooms_ne_nil hrp) htp
        (qualified_instructors_ne_nil _ _))
      _ [] (fun p hp => absurd hp (List.not_mem_nil p)) (v, dom) hmem
  unfold domain_of
  rw [hd]
  exact hne

/-- C6: for every catalog with at least one room and at least one timeslot,
every variable's constructed domain is nonempty; and when both the unrelaxed
and the capacity-relaxed room passes come up empty, the room subset used is
`list(rooms)[:10]`, bounded by the cap of 10. -/
theorem claim_C6 (data : InputData) (hr : data.rooms ≠ []) (ht : data.timeslots ≠ []) :
    (∀ v ∈ (buildCSP data).vars, domain_of (buildCSP data) v ≠ [])
      ∧ (∀ ct sc, suitable_rooms_pass1 (buildCSP data).rooms ct sc = []
          → suitable_rooms_pass2 (buildCSP data).rooms ct = []
          → suitable_rooms (buildCSP data).rooms ct sc
              = ((buildCSP data).rooms.map Prod.fst).take 10
            ∧ (suitable_rooms (buildCSP data).rooms ct sc).length ≤ 10) := by
  refine ⟨vars_domain_ne_nil data hr ht, ?_⟩
  intro ct sc h1 h2
  have e1 : (suitable_rooms_pass1 (buildCSP data).rooms ct sc).isEmpty = true := by
    rw [h1]
    rfl
  have e2 : (suitable_rooms_pass2 (buildCSP data).rooms ct).isEmpty = true := by
    rw [h2]
    rfl
  have heq : suitable_rooms (buildCSP data).rooms ct sc
      = ((buildCSP data).rooms.map Prod.fst).take 10 := by
    unfold suitable_rooms
    dsimp only
    rw [if_pos e1, if_pos e2]
  refine ⟨heq, ?_⟩
  rw [heq]
  exact le_trans (List.length_take_le 10 _) (le_refl 10)

theorem claim_C6_witness :
    (dataSolvable.rooms ≠ [] ∧ dataSolvable.timeslots ≠ [])
      ∧ ((∀ v ∈ (buildCSP dataSolvable).vars, domain_of (buildCSP dataSolvable) v ≠ [])
          ∧ (∀ ct sc, suitable_rooms_pass1 (buildCSP dataSolvable).rooms ct sc = []
              → suitable_rooms_pass2 (buildCSP dataSolvable).rooms ct = []
              → suitable_rooms (buildCSP dataSolvable).rooms ct sc
                  = ((buildCSP dataSolvable).rooms.map Prod.fst).take 10
                ∧ (suitable_rooms (buildCSP dataSolvable).rooms ct sc).length ≤ 10)) :=
  ⟨⟨by decide, by decide⟩, claim_C6 dataSolvable (by decide) (by decide)⟩

/-- C5 counterexample: `dataNoRooms` has an empty room catalog; model
building completes silently and yields the variable `S1_C1` with an empty
domain — no `EmptyDomainError` exists in the code (the constructor has no
raise path), so nothing propagates and nothing halts the pipeline before
search. -/
theorem claim_C5_counterexample :
    (buildCSP dataNoRooms).vars = ["S1_C1"]
      ∧ domain_of (buildCSP dataNoRooms) "S1_C1" = [] :=
  ⟨by decide, by decide⟩

/-- C5 (amended): a created variable's domain is empty exactly when the
global room catalog or the global timeslot catalog is empty — but in that
case the constructor silently yields the variable with an empty domain;
construction is total and no error propagates or halts the pipeline. -/
theorem claim_C5_amended (data : InputData) (v : String)
    (hv : v ∈ (buildCSP data).vars) :
    domain_of (buildCSP data) v = [] ↔ data.rooms = [] ∨ data.timeslots = [] := by
  constructor
  · intro h
    by_contra hcon
    push_neg at hcon
    exact vars_domain_ne_nil data hcon.1 hcon.2 v hv h
  · intro h
    have hp : parse_rooms data.rooms = [] ∨ parse_timeslots data.timeslots = [] := by
      rcases h with h | h
      · exact Or.inl (parse_rooms_eq_nil_iff.mpr h)
      · exact Or.inr (parse_timeslots_eq_nil_iff.mpr h)
    have hvals : ∀ p ∈ (buildCSP data).domains, p.2 = [] := by
      refine foldl_add_domain_values (fun d => d = []) (fun vi => ?_) _ []
        (fun p hp => absurd hp (List.not_mem_nil p))
      rcases hp with hp | hp
      · refine build_domain_eq_nil_of (Or.inl ?_)
        unfold suitable_rooms suitable_rooms_pass1 suitable_rooms_pass2
        rw [hp]
        rfl
      · exact build_domain_eq_nil_of (Or.inr hp)
    unfold domain_of
    cases hget : dictGet (buildCSP data).domains v with
    | none => rfl
    | some d => exact hvals (v, d) (dictGet_mem hget)

theorem claim_C5_amended_witness :
    "S1_C1" ∈ (buildCSP dataNoRooms).vars
      ∧ (domain_of (buildCSP dataNoRooms) "S1_C1" = []
          ↔ dataNoRooms.rooms = [] ∨ dataNoRooms.timeslots = []) :=
  ⟨by decide, claim_C5_amended dataNoRooms "S1_C1" (by decide)⟩

/-! ## Claim C7: the first unrelaxed room pass -/

theorem room_matches_course_iff (rt ct : String) :
    room_matches_course rt ct = true
      ↔ ((mentions_lecture ct ∧ mentions_lecture rt)
          ∨ (mentions_lab ct ∧ mentions_lab rt)
          ∨ (mentions_lecture ct ∧ mentions_lab ct)) := by
  unfold room_matches_course mentions_lecture mentions_lab
  dsimp only
  by_cases h1 : pyIn "lecture" (pyLower ct) = true <;>
    by_cases h2 : pyIn "lecture" (pyLower rt) = true <;>
      by_cases h3 : pyIn "lab" (pyLower ct) = true <;>
        by_cases h4 : pyIn "lab" (pyLower rt) = true <;>
          simp [h1, h2, h3, h4]

/-- C7 counterexample: a room of type `Auditorium` (neither lecture-type nor
lab-type) with ample capacity is accepted by the code's first unrelaxed pass
for the combined course type `Lecture and Lab`, although the spec's wording
— "either of those two room types for a combined lecture-and-lab course" —
rejects it. -/
theorem claim_C7_counterexample :
    "R1" ∈ suitable_rooms_pass1 [("R1", ⟨"Auditorium", 100⟩)] "Lecture and Lab" 30
      ∧ ¬ room_qualifies_spec "Auditorium" "Lecture and Lab" 100 30 :=
  ⟨by decide, by unfold room_qualifies_spec mentions_lecture mentions_lab; decide⟩

/-- C7 (amended): in the first unrelaxed pass a room qualifies iff its
capacity is at least the section's student count and its type is compatible
with the course type — lecture room for lecture course, lab room for lab
course — except that a combined lecture-and-lab course accepts a room of
any type whatsoever. -/
theorem claim_C7_amended (rooms : List (String × RoomInfo)) (ct : String) (sc : Nat)
    (rid : String) :
    rid ∈ suitable_rooms_pass1 rooms ct sc
      ↔ ∃ info : RoomInfo, (rid, info) ∈ rooms
          ∧ room_qualifies_spec_amended info.rtype ct info.capacity sc := by
  have hpred : ∀ rt (cap : Nat),
      (room_matches_course rt ct && decide (cap ≥ sc)) = true
        ↔ room_qualifies_spec_amended rt ct cap sc := by
    intro rt cap
    rw [Bool.and_eq_true, decide_eq_true_iff, room_matches_course_iff]
    unfold room_qualifies_spec_amended
    exact Iff.rfl
  unfold suitable_rooms_pass1
  rw [List.mem_map]
  constructor
  · rintro ⟨p, hp, rfl⟩
    rw [List.mem_filter] at hp
    exact ⟨p.2, by simpa using hp.1, (hpred p.2.rtype p.2.capacity).mp hp.2⟩
  · rintro ⟨info, hmem, hq⟩
    exact ⟨(rid, info),
      List.mem_filter.mpr ⟨hmem, (hpred info.rtype info.capacity).mpr hq⟩, rfl⟩

/-! ## Claim C8: MRV selection -/

/-- Head of a stable merge sort by a numeric key: it is the earliest element
of minimal key — there is a split of the input in which everything before
the head has a strictly larger key, and the head's key is a minimum. -/
theorem mergeSort_head_earliest_min {α : Type} (f : α → Nat) :
    ∀ l : List α, l ≠ [] →
      ∃ u l1 l2, (l.mergeSort (fun x y => decide (f x ≤ f y))).head? = some u
        ∧ l = l1 ++ u :: l2
        ∧ (∀ v ∈ l1, f u < f v)
        ∧ (∀ v ∈ l, f u ≤ f v) := by
  have htrans : ∀ a b c : α, (fun x y => decide (f x ≤ f y)) a b = true
      → (fun x y => decide (f x ≤ f y)) b c = true
      → (fun x y => decide (f x ≤ f y)) a c = true := by
    intro a b c hab hbc
    simp only [decide_eq_true_iff] at *
    omega
  have htotal : ∀ a b : α, ((fun x y => decide (f x ≤ f y)) a b
      || (fun x y => decide (f x ≤ f y)) b a) = true := by
    intro a b
    simp only [Bool.or_eq_true, decide_eq_true_iff]
    omega
  intro l
  induction l with
  | nil =>
    intro h
    cases h rfl
  | cons a l ih =>
    intro _
    cases l with
    | nil =>
      refine ⟨a, [], [], ?_, rfl, fun v hv => absurd hv (List.not_mem_nil v), ?_⟩
      · rw [List.mergeSort_singleton]
        rfl
      · intro v hv
        rw [List.mem_singleton.mp hv]
    | cons b l' =>
      obtain ⟨l₁, l₂, hms, hms', hlt⟩ := List.mergeSort_cons htrans htotal a (b :: l')
      cases l₁ with
      | nil =>
        have hhead : ((a :: b :: l').mergeSort
            (fun x y => decide (f x ≤ f y))).head? = some a := by
          rw [hms]
          rfl
        refine ⟨a, [], b :: l', hhead, rfl,
          fun v hv => absurd hv (List.not_mem_nil v), ?_⟩
        have hsorted := List.sorted_mergeSort htrans htotal (a :: b :: l')
        rw [hms] at hsorted
        have hrest : ∀ v ∈ l₂, f a ≤ f v := by
          intro v hv
          have := List.rel_of_pairwise_cons hsorted hv
          simpa using this
        intro v hv
        rcases List.mem_cons.mp hv with hv | hv
        · rw [hv]
        · refine hrest v ?_
          have hperm : (b :: l').mergeSort (fun x y => decide (f x ≤ f y)) = l₂ := by
            simpa using hms'
          rw [← hperm]
          exact ((List.mergeSort_perm (b :: l') _).mem_iff).mpr hv
      | cons c l₁' =>
        have hhead : ((a :: b :: l').mergeSort
            (fun x y => decide (f x ≤ f y))).head? = some c := by
          rw [hms]
          rfl
        obtain ⟨u, m1, m2, ihh, ihsplit, ihlt, ihle⟩ := ih (by simp)
        have hu : u = c := by
          rw [hms'] at ihh
          simpa using ihh.symm
        subst hu
        refine ⟨u, a :: m1, m2, hhead, by rw [ihsplit, List.cons_append], ?_, ?_⟩
        · intro v hv
          rcases List.mem_cons.mp hv with hv | hv
          · subst hv
            have := hlt u (List.mem_cons_self u l₁')
            simpa using this
          · exact ihlt v hv
        · intro v hv
          rcases List.mem_cons.mp hv with hv | hv
          · subst hv
            have h2 : f u < f v := by simpa using hlt u (List.mem_cons_self u l₁')
            omega
          · exact ihle v hv

/-- C8: whenever at least one variable is unassigned, MRV selection returns
an unassigned variable of smallest static domain size, and — since the
filtered unassigned list preserves original construction order — every
unassigned variable placed before it has a strictly larger domain, i.e. on
ties the earliest one in construction order wins. -/
theorem claim_C8 (csp : TimetableCSP) (assignment : Assignment)
    (h : ∃ v ∈ csp.vars, assignedB assignment v = false) :
    ∃ u, select_unassigned_variable csp assignment = some u
      ∧ ∃ l1 l2, csp.vars.filter (fun v => !(assignedB assignment v)) = l1 ++ u :: l2
        ∧ (∀ v ∈ l1, (domain_of csp u).length < (domain_of csp v).length)
        ∧ (∀ v ∈ csp.vars.filter (fun v => !(assignedB assignment v)),
            (domain_of csp u).length ≤ (domain_of csp v).length) := by
  have hne : csp.vars.filter (fun v => !(assignedB assignment v)) ≠ [] := by
    obtain ⟨v, hv, hun⟩ := h
    exact List.ne_nil_of_mem (List.mem_filter.mpr ⟨hv, by simp [hun]⟩)
  obtain ⟨u, l1, l2, hh, hsplit, hlt, hle⟩ :=
    mergeSort_head_earliest_min (fun v => (domain_of csp v).length)
      (csp.vars.filter (fun v => !(assignedB assignment v))) hne
  refine ⟨u, ?_, l1, l2, hsplit, hlt, hle⟩
  unfold select_unassigned_variable
  rw [if_neg (fun he => hne (List.isEmpty_iff.mp he))]
  exact hh

theorem claim_C8_witness :
    (∃ v ∈ cspTwoSections.vars, assignedB [] v = false)
      ∧ ∃ u, select_unassigned_variable cspTwoSections [] = some u
          ∧ ∃ l1 l2, cspTwoSections.vars.filter (fun v => !(assignedB [] v))
                = l1 ++ u :: l2
              ∧ (∀ v ∈ l1,
                  (domain_of cspTwoSections u).length < (domain_of cspTwoSections v).length)
              ∧ (∀ v ∈ cspTwoSections.vars.filter (fun v => !(assignedB [] v)),
                  (domain_of cspTwoSections u).length
                    ≤ (domain_of cspTwoSections v).length) :=
  ⟨⟨"S1_C1", by decide, by decide⟩, claim_C8 cspTwoSections []
    ⟨"S1_C1", by decide, by decide⟩⟩

/-! ## Claim C9: the preference field is never consulted -/

theorem dictInsert_stripPref {d1 d2 : List (String × InstrInfo)} {k : String}
    {v1 v2 : InstrInfo} (hd : d1.map stripPref = d2.map stripPref)
    (hn : v1.name = v2.name) (hc : v1.courses = v2.courses) :
    (dictInsert d1 k v1).map stripPref = (dictInsert d2 k v2).map stripPref := by
  induction d1 generalizing d2 with
  | nil =>
    cases d2 with
    | nil => simp [dictInsert, stripPref, hn, hc]
    | cons q r => cases hd
  | cons p1 r1 ih =>
    cases d2 with
    | nil => cases hd
    | cons p2 r2 =>
      simp only [List.map_cons, List.cons.injEq, stripPref, Prod.mk.injEq] at hd
      obtain ⟨⟨hk, hnm, hcs⟩, hrest⟩ := hd
      unfold dictInsert
      by_cases hkk : p1.1 = k
      · rw [if_pos hkk, if_pos (hk ▸ hkk)]
        simp [stripPref, hn, hc, hrest]
      · rw [if_neg hkk, if_neg (fun hcon => hkk (hk.symm ▸ hcon))]
        rw [List.map_cons, List.map_cons, ih hrest]
        congr 1
        simp [stripPref, hk, hnm, hcs]

theorem parse_instructors_stripPref {l1 l2 : List InstructorRec}
    (h : List.Forall₂ (fun i j => i.instructorID = j.instructorID ∧ i.name = j.name
        ∧ i.qualifiedCourses = j.qualifiedCourses) l1 l2) :
    (parse_instructors l1).map stripPref = (parse_instructors l2).map stripPref := by
  unfold parse_instructors
  have haux : ∀ {l1 l2 : List InstructorRec},
      List.Forall₂ (fun i j => i.instructorID = j.instructorID
      ∧ i.name = j.name ∧ i.qualifiedCourses = j.qualifiedCourses) l1 l2
      → ∀ {d1 d2 : List (String × InstrInfo)}, d1.map stripPref = d2.map stripPref
      → (l1.foldl (fun d i => dictInsert d i.instructorID
            ⟨i.name, splitCSV i.qualifiedCourses, i.preferredSlots⟩) d1).map stripPref
        = (l2.foldl (fun d i => dictInsert d i.instructorID
            ⟨i.name, splitCSV i.qualifiedCourses, i.preferredSlots⟩) d2).map stripPref := by
    intro l1 l2 h
    induction h with
    | nil => exact fun hd => hd
    | cons hab htail ih =>
      intro d1 d2 hd
      rw [List.foldl_cons, List.foldl_cons]
      refine ih ?_
      rw [hab.1]
      exact dictInsert_stripPref hd hab.2.1 (by rw [hab.2.2])
  exact haux h rfl

theorem qualified_instructors_congr {d1 d2 : List (String × InstrInfo)}
    (hd : d1.map stripPref = d2.map stripPref) (c : String) :
    qualified_instructors d1 c = qualified_instructors d2 c := by
  have hfm : (d1.filter (fun p => p.2.courses.contains c)).map Prod.fst
      = (d2.filter (fun p => p.2.courses.contains c)).map Prod.fst := by
    induction d1 generalizing d2 with
    | nil =>
      cases d2 with
      | nil => rfl
      | cons q r => cases hd
    | cons p1 r1 ih =>
      cases d2 with
      | nil => cases hd
      | cons p2 r2 =>
        simp only [List.map_cons, List.cons.injEq, stripPref, Prod.mk.injEq] at hd
        obtain ⟨⟨hk, hnm, hcs⟩, hrest⟩ := hd
        simp only [List.filter_cons, hcs, hk]
        by_cases hcon : p2.2.courses.contains c
        · rw [if_pos hcon, if_pos hcon]
          rw [List.map_cons, List.map_cons, ih hrest, hk]
        · rw [if_neg hcon, if_neg hcon]
          exact ih hrest
  unfold qualified_instructors
  rw [hfm]

theorem instrName_congr {d1 d2 : List (String × InstrInfo)}
    (hd : d1.map stripPref = d2.map stripPref) (i : String) :
    (match dictGet d1 i with
      | some d => d.name
      | none => "Unassigned")
      = (match dictGet d2 i with
          | some d => d.name
          | none => "Unassigned") := by
  induction d1 generalizing d2 with
  | nil =>
    cases d2 with
    | nil => rfl
    | cons q r => cases hd
  | cons p1 r1 ih =>
    cases d2 with
    | nil => cases hd
    | cons p2 r2 =>
      simp only [List.map_cons, List.cons.injEq, stripPref, Prod.mk.injEq] at hd
      obtain ⟨⟨hk, hnm, hcs⟩, hrest⟩ := hd
      unfold dictGet
      by_cases hki : p1.1 = i
      · rw [if_pos hki, if_pos (hk ▸ hki)]
        exact hnm
      · rw [if_neg hki, if_neg (fun hcon => hki (hk.symm ▸ hcon))]
        exact ih hrest

theorem build_domain_congr {d1 d2 : List (String × InstrInfo)}
    (hd : d1.map stripPref = d2.map stripPref) (ts : List SlotInfo)
    (rl il : List String) : build_domain d1 ts rl il = build_domain d2 ts rl il := by
  unfold build_domain
  refine List.flatMap_congr (fun r _ => ?_)
  refine List.flatMap_congr (fun t _ => ?_)
  refine List.map_congr_left (fun i _ => ?_)
  have := instrName_congr hd i
  simp only [this]

theorem create_domains_congr {info : List (String × VarInfo)}
    {rooms : List (String × RoomInfo)} {ts : List SlotInfo}
    {d1 d2 : List (String × InstrInfo)} (hd : d1.map stripPref = d2.map stripPref) :
    ∀ (vl : List String) (doms : List (String × List DomainValue)),
      vl.foldl (add_domain info rooms d1 ts) doms
        = vl.foldl (add_domain info rooms d2 ts) doms := by
  intro vl
  induction vl with
  | nil => exact fun doms => rfl
  | cons w rest ih =>
    intro doms
    rw [List.foldl_cons, List.foldl_cons]
    have hstep : add_domain info rooms d1 ts doms w = add_domain info rooms d2 ts doms w := by
      unfold add_domain
      cases dictGet info w with
      | none => rfl
      | some vi =>
        dsimp only
        rw [qualified_instructors_congr hd, build_domain_congr hd]
    rw [hstep]
    exact ih _

theorem select_congr {c1 c2 : TimetableCSP} (hv : c1.vars = c2.vars)
    (hd : c1.domains = c2.domains) (a : Assignment) :
    select_unassigned_variable c1 a = select_unassigned_variable c2 a := by
  simp only [select_unassigned_variable, domain_of, hv, hd]

theorem is_consistent_congr {c1 c2 : TimetableCSP}
    (hi : c1.variable_info = c2.variable_info) (a : Assignment) (var : String)
    (value : DomainValue) : is_consistent c1 a var value = is_consistent c2 a var value := by
  simp only [is_consistent, var_info_of, hi]

theorem backtrack_congr (c1 c2 : TimetableCSP) (hv : c1.vars = c2.vars)
    (hi : c1.variable_info = c2.variable_info) (hd : c1.domains = c2.domains)
    (m : Nat) :
    ∀ (a : Assignment) (it : Nat), backtrack c1 m a it = backtrack c2 m a it := by
  refine backtrack.induct c1 m
    (fun a it => backtrack c1 m a it = backtrack c2 m a it)
    (fun a var values it => try_values c1 m a var values it = try_values c2 m a var values it)
    ?_ ?_ ?_ ?_ ?_ ?_ ?_ ?_
  · intro a it
    dsimp only
    intro h
    rw [backtrack_budget h, backtrack_budget h]
  · intro a it
    dsimp only
    intro hb hl
    rw [backtrack_complete hb hl, backtrack_complete hb (hv ▸ hl)]
  · intro a it
    dsimp only
    intro hb hl hsel
    rw [backtrack_select_none hb hl hsel,
      backtrack_select_none hb (hv ▸ hl) (select_congr hv hd a ▸ hsel)]
  · intro a it
    dsimp only
    intro hb hl var hsel ih
    rw [backtrack_step hb hl hsel,
      backtrack_step hb (hv ▸ hl) (select_congr hv hd a ▸ hsel)]
    rw [show domain_of c2 var = domain_of c1 var from by simp only [domain_of, hd]]
    exact ih
  · intro a var it
    rw [try_values_nil, try_values_nil]
  · intro a var it value rest hc
    dsimp only
    intro hr ih
    rw [try_values_cons_true hc hr,
      try_values_cons_true (is_consistent_congr hi a var value ▸ hc) (ih ▸ hr)]
    exact ih
  · intro a var it value rest hc
    dsimp only
    intro hr ih1 ih2
    have hr' : (backtrack c1 m (a ++ [(var, value)]) it).1 = false :=
      Bool.not_eq_true _ ▸ hr
    rw [try_values_cons_false hc hr',
      try_values_cons_false (is_consistent_congr hi a var value ▸ hc) (ih1 ▸ hr')]
    rw [← ih1]
    exact ih2
  · intro a var it value rest hc ih
    have hc' : is_consistent c1 a var value = false := Bool.not_eq_true _ ▸ hc
    rw [try_values_cons_inconsistent hc',
      try_values_cons_inconsistent (is_consistent_congr hi a var value ▸ hc')]
    exact ih

/-- C9: two catalogs that differ only in the instructors' `PreferredSlots`
values produce identical variables, identical variable info, identical
domains, and an identical search result triple (success flag, final
assignment, iteration count): the preference field is carried in the parsed
instructor table but never consulted by domain construction, the consistency
check, or the search. -/
theorem claim_C9 (data : InputData) (instructors2 : List InstructorRec) (m : Nat)
    (h : List.Forall₂ (fun i j => i.instructorID = j.instructorID ∧ i.name = j.name
        ∧ i.qualifiedCourses = j.qualifiedCourses) data.instructors instructors2) :
    (buildCSP { data with instructors := instructors2 }).vars = (buildCSP data).vars
      ∧ (buildCSP { data with instructors := instructors2 }).variable_info
          = (buildCSP data).variable_info
      ∧ (buildCSP { data with instructors := instructors2 }).domains
          = (buildCSP data).domains
      ∧ backtracking_search (buildCSP { data with instructors := instructors2 }) m
          = backtracking_search (buildCSP data) m := by
  have hstrip : (parse_instructors instructors2).map stripPref
      = (parse_instructors data.instructors).map stripPref :=
    (parse_instructors_stripPref h).symm
  have hdoms : (buildCSP { data with instructors := instructors2 }).domains
      = (buildCSP data).domains := by
    show create_domains _ _ _ (parse_instructors instructors2) _
      = create_domains _ _ _ (parse_instructors data.instructors) _
    unfold create_domains
    exact create_domains_congr hstrip _ _
  refine ⟨rfl, rfl, hdoms, ?_⟩
  unfold backtracking_search
  exact backtrack_congr (buildCSP { data with instructors := instructors2 })
    (buildCSP data) rfl rfl hdoms m [] 0

theorem claim_C9_witness :
    List.Forall₂ (fun i j => i.instructorID = j.instructorID ∧ i.name = j.name
        ∧ i.qualifiedCourses = j.qualifiedCourses)
      dataSolvable.instructors dataSolvableOtherPrefs.instructors
      ∧ backtracking_search
          (buildCSP { dataSolvable with instructors := dataSolvableOtherPrefs.instructors })
          1000
        = backtracking_search (buildCSP dataSolvable) 1000 :=
  ⟨List.Forall₂.cons ⟨rfl, rfl, rfl⟩ List.Forall₂.nil,
   (claim_C9 dataSolvable dataSolvableOtherPrefs.instructors 1000
     (List.Forall₂.cons ⟨rfl, rfl, rfl⟩ List.Forall₂.nil)).2.2.2⟩

/-! ## Claim C10: the result projector -/

/-- C10: on an empty assignment the projector returns `none` (Python falls
into `if not self.assignment: return None`) rather than an empty row
collection; on every non-empty assignment it returns a row collection that
is a permutation (the sort) of one flat record per assigned variable. -/
theorem claim_C10 (csp : TimetableCSP) (assignment : Assignment) :
    (assignment = [] → generate_schedule_dataframe csp assignment = none)
      ∧ (assignment ≠ []
          → ∃ rows, generate_schedule_dataframe csp assignment = some rows
              ∧ rows.Perm (assignment.map (schedule_row csp))) := by
  constructor
  · intro h
    subst h
    rfl
  · intro h
    unfold generate_schedule_dataframe
    rw [if_neg (fun he => h (List.isEmpty_iff.mp he))]
    exact ⟨_, rfl, List.mergeSort_perm _ _⟩

theorem claim_C10_witness :
    generate_schedule_dataframe cspTwoSections [] = none
      ∧ ([("S1_C1", valR1)] ≠ ([] : Assignment)
          ∧ ∃ rows, generate_schedule_dataframe cspTwoSections [("S1_C1", valR1)]
                = some rows
              ∧ rows.Perm ([("S1_C1", valR1)].map (schedule_row cspTwoSections))) :=
  ⟨(claim_C10 cspTwoSections []).1 rfl,
   by decide, (claim_C10 cspTwoSections [("S1_C1", valR1)]).2 (by decide)⟩

theorem claim_C2_amended_witness :
    (("S1", (⟨30, ["C1", "CX"]⟩ : SectInfo)) ∈ (buildCSP dataDangling).section_courses
        ∧ "C1" ∈ (⟨30, ["C1", "CX"]⟩ : SectInfo).courses
        ∧ dictContains (buildCSP dataDangling).courses "C1" = true)
      ∧ varName "S1" "C1" ∈ (buildCSP dataDangling).vars :=
  ⟨⟨by decide, by decide, by decide⟩,
   (claim_C2_amended dataDangling).2 ("S1", ⟨30, ["C1", "CX"]⟩) (by decide) "C1"
     (by decide) (by decide)⟩

end Timetable
